import Mathlib

/-!
Verification development for the gardener-extension-otelcol repository.

The definitions below are a shallow embedding of the repository's Go code:

- `config.*`          : the typed collector configuration
                        (pkg/apis/config/types.go and its API reference)
- `GoNetURL.*`        : a model of Go's `net/url.Parse` restricted to its
                        success/failure behaviour, which is all the
                        validation code observes
- `validation.Validate` : pkg/apis/config/validation/validation.go
- `validator.*`       : pkg/admission/validator (the shoot admission webhook)
- `actuator.*`        : pkg/actuator/actuator.go (the reconciliation engine)
-/

namespace config

/-- ResourceReferenceDetails references a resource (e.g. a Secret) in the
garden cluster; mirrors the `resourceRef` payload with `name` and `dataKey`. -/
structure ResourceReferenceDetails where
  name : String
  dataKey : String
deriving DecidableEq, Repr

/-- ResourceReference references data from a Secret via `.resourceRef`. -/
structure ResourceReference where
  resourceRef : ResourceReferenceDetails
deriving DecidableEq, Repr

/-- Modelled from the spec: the internal config types file holding the
exporter TLS settings with CA/cert/key resource references is not part of the
provided sources (only the API reference documents it); per the API reference,
TLS has an optional `insecureSkipVerify` flag and optional `ca`, `cert` and
`key` resource references. -/
structure ExporterTLSConfig where
  insecureSkipVerify : Option Bool
  ca : Option ResourceReference
  cert : Option ResourceReference
  key : Option ResourceReference
deriving DecidableEq, Repr

/-- Modelled from the spec: DebugExporterConfig with its `enabled` flag and
`verbosity` level, per the API reference. -/
structure DebugExporterConfig where
  enabled : Option Bool
  verbosity : String
deriving DecidableEq, Repr

/-- OTLPHTTPExporterConfig: the OTLP HTTP exporter settings read by the
validation code.  The duration/retry/encoding/compression settings are never
read by any of the verified operations and are omitted. -/
structure OTLPHTTPExporterConfig where
  enabled : Option Bool
  endpoint : String
  tracesEndpoint : String
  metricsEndpoint : String
  logsEndpoint : String
  profilesEndpoint : String
  tls : ExporterTLSConfig
  token : Option ResourceReference
  readBufferSize : Int
  writeBufferSize : Int
deriving DecidableEq, Repr

/-- CollectorExportersConfig aggregates the named exporter configurations. -/
structure CollectorExportersConfig where
  otlphttpExporter : OTLPHTTPExporterConfig
  debugExporter : DebugExporterConfig
deriving DecidableEq, Repr

/-- CollectorConfigSpec specifies the desired state of a CollectorConfig. -/
structure CollectorConfigSpec where
  exporters : CollectorExportersConfig
deriving DecidableEq, Repr

/-- CollectorConfig provides the OpenTelemetry Collector API configuration. -/
structure CollectorConfig where
  spec : CollectorConfigSpec
deriving DecidableEq, Repr

/-- Modelled from the spec: the `IsEnabled` helper of the debug exporter is
not part of the provided sources; per the spec each exporter carries an
`enabled` flag, and the exporter counts as enabled exactly when the optional
flag is set to true. -/
def DebugExporterConfig.IsEnabled (c : DebugExporterConfig) : Bool :=
  c.enabled == some true

/-- Modelled from the spec: the `IsEnabled` helper of the OTLP HTTP exporter,
analogous to `DebugExporterConfig.IsEnabled`. -/
def OTLPHTTPExporterConfig.IsEnabled (c : OTLPHTTPExporterConfig) : Bool :=
  c.enabled == some true

/-- The zero value of `ResourceReferenceDetails`. -/
def emptyResourceReferenceDetails : ResourceReferenceDetails := ⟨"", ""⟩

/-- The zero value of `ExporterTLSConfig`. -/
def emptyTLS : ExporterTLSConfig := ⟨none, none, none, none⟩

/-- The zero value of `DebugExporterConfig`. -/
def emptyDebug : DebugExporterConfig := ⟨none, ""⟩

/-- The zero value of `OTLPHTTPExporterConfig`. -/
def emptyOTLPHTTP : OTLPHTTPExporterConfig :=
  ⟨none, "", "", "", "", "", emptyTLS, none, 0, 0⟩

/-- The collector configuration with an empty `exporters` block (all zero
values), as produced by decoding `exporters = {}`. -/
def emptyCollectorConfig : CollectorConfig :=
  ⟨⟨⟨emptyOTLPHTTP, emptyDebug⟩⟩⟩

end config

namespace GoNetURL

/-!
A model of Go's `net/url.Parse` (the standard library function used by
`validation.Validate`), restricted to whether parsing succeeds.  Strings are
handled as lists of characters; all inputs appearing in the verified code and
in the theorems below are ASCII, where Go's byte-wise processing and the
character-wise processing here coincide.
-/

/-- ASCII control byte test, as in Go's `stringContainsCTLByte`. -/
def isCTLByte (c : Char) : Bool :=
  c.toNat < 0x20 || c.toNat == 0x7f

/-- Whether the raw URL contains an ASCII control byte. -/
def containsCTL (s : List Char) : Bool := s.any isCTLByte

/-- ASCII letter test. -/
def isAlphaCh (c : Char) : Bool :=
  (0x41 ≤ c.toNat && c.toNat ≤ 0x5a) || (0x61 ≤ c.toNat && c.toNat ≤ 0x7a)

/-- ASCII digit test. -/
def isDigitCh (c : Char) : Bool :=
  0x30 ≤ c.toNat && c.toNat ≤ 0x39

/-- ASCII hex digit test, as in Go's `ishex`. -/
def isHexCh (c : Char) : Bool :=
  isDigitCh c || (0x61 ≤ c.toNat && c.toNat ≤ 0x66) || (0x41 ≤ c.toNat && c.toNat ≤ 0x46)

/-- Hex digit value, as in Go's `unhex` (0 on non-hex input, unused there). -/
def unhexVal (c : Char) : Nat :=
  if isDigitCh c then c.toNat - 0x30
  else if 0x61 ≤ c.toNat && c.toNat ≤ 0x66 then c.toNat - 0x61 + 10
  else if 0x41 ≤ c.toNat && c.toNat ≤ 0x46 then c.toNat - 0x41 + 10
  else 0

/-- Characters Go's `shouldEscape` leaves unescaped in host mode: ASCII
letters and digits, the unreserved marks, and the additional set the host
parser admits (sub-delims, `:` `[` `]` `<` `>` and the double quote). -/
def hostAllowed : List Char :=
  ['-', '_', '.', '~', '!', '$', '&', Char.ofNat 39, '(', ')', '*', '+',
   ',', ';', '=', ':', '[', ']', '<', '>', '"']

/-- Go's `shouldEscape c encodeHost`: true when the character is not allowed
to appear verbatim in a host. -/
def shouldEscapeHost (c : Char) : Bool :=
  !(isAlphaCh c || isDigitCh c || hostAllowed.contains c)

/-- The escaping modes of Go's `net/url` that can influence whether
`unescape` fails. -/
inductive EscMode where
  | path
  | userPassword
  | host
  | zone
  | fragment
deriving DecidableEq, Repr, BEq

/-- Success of Go's `unescape s mode`: every `%` must be followed by two hex
digits; in host mode a percent-escape must denote a non-ASCII byte unless it
is exactly `%25`; in zone mode a percent-escape other than `%25` must decode
to a space or to a byte that may appear verbatim in a host; and unescaped
characters below 0x80 must be allowed in a host (host and zone modes share
that character set). -/
def unescapeOK (mode : EscMode) : List Char → Bool
  | [] => true
  | '%' :: x :: y :: rest =>
    if !(isHexCh x && isHexCh y) then false
    else if mode == .host && unhexVal x < 8 && !(x == '2' && y == '5') then false
    else if mode == .zone && !(x == '2' && y == '5') &&
            (unhexVal x * 16 + unhexVal y) != 0x20 &&
            shouldEscapeHost (Char.ofNat (unhexVal x * 16 + unhexVal y)) then false
    else unescapeOK mode rest
  | '%' :: _ => false
  | c :: rest =>
    if (mode == .host || mode == .zone) && c.toNat < 0x80 && shouldEscapeHost c then false
    else unescapeOK mode rest

/-- Split at the first occurrence of `sep`, as Go's `strings.Cut`: returns
(before, after, found); the separator itself is dropped. -/
def cutFirst (sep : Char) : List Char → List Char × List Char × Bool
  | [] => ([], [], false)
  | c :: cs =>
    if c == sep then ([], cs, true)
    else
      let r := cutFirst sep cs
      (c :: r.1, r.2.1, r.2.2)

/-- Index of the last occurrence of `sep`, as Go's `strings.LastIndex` for a
single character. -/
def lastIdxOf (sep : Char) (s : List Char) : Option Nat :=
  go s 0 none
where
  go : List Char → Nat → Option Nat → Option Nat
  | [], _, acc => acc
  | c :: cs, i, acc => go cs (i + 1) (if c == sep then some i else acc)

/-- Index of the first occurrence of the substring `%25`, as Go's
`strings.Index(s, "%25")`. -/
def idxOfPercent25 (s : List Char) : Option Nat :=
  go s 0
where
  go : List Char → Nat → Option Nat
  | [], _ => none
  | '%' :: '2' :: '5' :: _, i => some i
  | _ :: cs, i => go cs (i + 1)

/-- Go's `validOptionalPort`: empty, or a colon followed by digits only. -/
def validOptionalPort : List Char → Bool
  | [] => true
  | ':' :: rest => rest.all isDigitCh
  | _ => false

/-- Characters admitted by Go's `validUserinfo`. -/
def validUserinfoCh (c : Char) : Bool :=
  isAlphaCh c || isDigitCh c ||
    ['-', '.', '_', ':', '~', '!', '$', '&', Char.ofNat 39, '(', ')', '*',
     '+', ',', ';', '=', '%', '@'].contains c

/-- Success of Go's `parseHost`: bracketed hosts need a closing bracket and a
valid optional port, an optional `%25` zone is unescaped in zone mode, and
everything else must unescape in host mode after an optional-port check at
the last colon. -/
def parseHostOK (host : List Char) : Bool :=
  if host.head? == some '[' then
    match lastIdxOf ']' host with
    | none => false
    | some i =>
      if !validOptionalPort (host.drop (i + 1)) then false
      else
        match idxOfPercent25 (host.take i) with
        | some zone =>
          unescapeOK .host (host.take zone) &&
          unescapeOK .zone ((host.take i).drop zone) &&
          unescapeOK .host (host.drop i)
        | none => unescapeOK .host host
  else
    match lastIdxOf ':' host with
    | some i =>
      if !validOptionalPort (host.drop i) then false
      else unescapeOK .host host
    | none => unescapeOK .host host

/-- Success of Go's `parseAuthority`: the host (after the last `@`) must
parse, and any userinfo must pass `validUserinfo` and unescape as username
and password. -/
def parseAuthorityOK (authority : List Char) : Bool :=
  match lastIdxOf '@' authority with
  | none => parseHostOK authority
  | some i =>
    let userinfo := authority.take i
    let host := authority.drop (i + 1)
    if !parseHostOK host then false
    else if !userinfo.all validUserinfoCh then false
    else if userinfo.contains ':' then
      let c := cutFirst ':' userinfo
      unescapeOK .userPassword c.1 && unescapeOK .userPassword c.2.1
    else unescapeOK .userPassword userinfo

/-- Success of Go's `parse(s, false)` (the `viaRequest = false` case used by
`url.Parse`): rejects control bytes, accepts `*`, splits the scheme and the
query, treats a rootless path with a scheme as opaque, rejects a colon in the
first segment of a scheme-less relative path, parses any authority after
`//`, and finally requires the path to unescape. -/
def parseViaFalseOK (s : List Char) : Bool :=
  if containsCTL s then false
  else if s == ['*'] then true
  else
    match getScheme s with
    | none => false
    | some (hasScheme, afterScheme) =>
      let rest := (cutFirst '?' afterScheme).1
      if !(rest.head? == some '/') then
        if hasScheme then true
        else if ((cutFirst '/' rest).1).contains ':' then false
        else unescapeOK .path rest
      else if (hasScheme || !(['/', '/', '/'].isPrefixOf rest)) &&
              (['/', '/'].isPrefixOf rest) then
        let c := cutFirst '/' (rest.drop 2)
        let restAfter := if c.2.2 then '/' :: c.2.1 else []
        parseAuthorityOK c.1 && unescapeOK .path restAfter
      else unescapeOK .path rest
where
  /-- Go's `getScheme`: returns whether a scheme was split off and the
  remainder, or `none` on a leading colon (missing protocol scheme). -/
  getScheme (raw : List Char) : Option (Bool × List Char) :=
    go raw raw 0
  go (raw : List Char) : List Char → Nat → Option (Bool × List Char)
  | [], _ => some (false, raw)
  | c :: cs, i =>
    if isAlphaCh c then go raw cs (i + 1)
    else if isDigitCh c || c == '+' || c == '-' || c == '.' then
      if i == 0 then some (false, raw) else go raw cs (i + 1)
    else if c == ':' then
      if i == 0 then none else some (true, raw.drop (i + 1))
    else some (false, raw)

/-- Success of Go's `url.Parse`: split the fragment at the first `#`, parse
the pre-fragment part with `viaRequest = false`, and unescape any fragment in
fragment mode. -/
def urlParseOK (rawURL : String) : Bool :=
  let c := cutFirst '#' rawURL.data
  parseViaFalseOK c.1 && (if c.2.2 then unescapeOK .fragment c.2.1 else true)

end GoNetURL

namespace validation

/-- A single field-level validation failure, as built by
`k8s.io/apimachinery`'s `field.Required` and `field.Invalid` helpers; only
the constructor, the field path, the (stringified) bad value and the detail
message are observed by the code. -/
inductive FieldError where
  | required (fieldPath : String) (detail : String)
  | invalid (fieldPath : String) (badValue : String) (detail : String)
deriving DecidableEq, Repr

/-- The message of a single field error, following `field.Error.Error()`. -/
def FieldError.message : FieldError → String
  | .required p d => p ++ ": Required value: " ++ d
  | .invalid p v d => p ++ ": Invalid value: " ++ v ++ ": " ++ d

/-- The aggregated message of `field.ErrorList.ToAggregate` (modulo the
deduplication of identical messages, which never occurs here). -/
def aggregateMsg (errs : List FieldError) : String :=
  String.intercalate ", " (errs.map FieldError.message)

/-- `field.ErrorList.ToAggregate`: `none` exactly when the list is empty,
otherwise the aggregated error message. -/
def toAggregate (errs : List FieldError) : Option String :=
  if errs = [] then none else some (aggregateMsg errs)

/-- Go's `cmp.Or` on booleans: the first argument different from the zero
value `false`, i.e. whether any argument is true. -/
def cmpOr : List Bool → Bool
  | [] => false
  | v :: rest => if v != false then v else cmpOr rest

/-- The `urlFields` table of `Validate`: path and value of the five otlphttp
endpoint fields. -/
def urlFieldsOf (cfg : config.CollectorConfig) : List (String × String) :=
  [("spec.exporters.otlphttp.endpoint", cfg.spec.exporters.otlphttpExporter.endpoint),
   ("spec.exporters.otlphttp.traces_endpoint", cfg.spec.exporters.otlphttpExporter.tracesEndpoint),
   ("spec.exporters.otlphttp.metrics_endpoint", cfg.spec.exporters.otlphttpExporter.metricsEndpoint),
   ("spec.exporters.otlphttp.logs_endpoint", cfg.spec.exporters.otlphttpExporter.logsEndpoint),
   ("spec.exporters.otlphttp.profiles_endpoint", cfg.spec.exporters.otlphttpExporter.profilesEndpoint)]

/-- The `nonNegativeFields` table of `Validate`: path and value of the HTTP
client buffer sizes. -/
def nonNegativeFieldsOf (cfg : config.CollectorConfig) : List (String × Int) :=
  [("spec.exporters.otlphttp.read_buffer_size", cfg.spec.exporters.otlphttpExporter.readBufferSize),
   ("spec.exporters.otlphttp.write_buffer_size", cfg.spec.exporters.otlphttpExporter.writeBufferSize)]

/-- The `resourceRefs` table of `Validate`: path and reference of the token
and TLS resource references. -/
def resourceRefsOf (cfg : config.CollectorConfig) :
    List (String × Option config.ResourceReference) :=
  [("spec.exporters.otlphttp.token", cfg.spec.exporters.otlphttpExporter.token),
   ("spec.exporters.otlphttp.tls.ca", cfg.spec.exporters.otlphttpExporter.tls.ca),
   ("spec.exporters.otlphttp.tls.cert", cfg.spec.exporters.otlphttpExporter.tls.cert),
   ("spec.exporters.otlphttp.tls.key", cfg.spec.exporters.otlphttpExporter.tls.key)]

/-- The loop body of the URL-field check: append an `invalid URL specified`
violation when the value is non-empty and `url.Parse` fails. -/
def urlStep (acc : List FieldError) (f : String × String) : List FieldError :=
  if f.2 != "" && !(GoNetURL.urlParseOK f.2) then
    acc ++ [.invalid f.1 f.2 "invalid URL specified"]
  else acc

/-- The loop body of the buffer-size check: append a `value cannot be
negative` violation when the value is below zero. -/
def nonNegStep (acc : List FieldError) (f : String × Int) : List FieldError :=
  if f.2 < 0 then acc ++ [.invalid f.1 (toString f.2) "value cannot be negative"]
  else acc

/-- The loop body of the resource-reference check: for a present reference,
append a violation when the name or the data key is empty. -/
def refStep (acc : List FieldError)
    (f : String × Option config.ResourceReference) : List FieldError :=
  match f.2 with
  | some ref =>
    if ref.resourceRef.name == "" || ref.resourceRef.dataKey == "" then
      acc ++ [.invalid f.1 f.1 "name or dataKey is empty"]
    else acc
  | none => acc

/-- `Validate` from pkg/apis/config/validation/validation.go: sequentially
accumulates the exporters-enabled, URL, buffer-size and resource-reference
violations into one list (returned as an aggregate by the Go code; the empty
list corresponds to a nil error). -/
def Validate (cfg : config.CollectorConfig) : List FieldError :=
  let allErrs : List FieldError := []
  let anyExporterEnabled : List Bool :=
    [cfg.spec.exporters.debugExporter.IsEnabled,
     cfg.spec.exporters.otlphttpExporter.IsEnabled]
  let allErrs :=
    if !(cmpOr anyExporterEnabled) then
      allErrs ++ [.required "spec.exporters" "no exporter enabled"]
    else allErrs
  let allErrs := (urlFieldsOf cfg).foldl urlStep allErrs
  let allErrs := (nonNegativeFieldsOf cfg).foldl nonNegStep allErrs
  let allErrs := (resourceRefsOf cfg).foldl refStep allErrs
  allErrs

/-- The exporters-enabled rule in isolation. -/
def exportersEnabledErrs (cfg : config.CollectorConfig) : List FieldError :=
  if !(cmpOr [cfg.spec.exporters.debugExporter.IsEnabled,
              cfg.spec.exporters.otlphttpExporter.IsEnabled]) then
    [.required "spec.exporters" "no exporter enabled"]
  else []

/-- The URL rule in isolation. -/
def urlErrs (cfg : config.CollectorConfig) : List FieldError :=
  (urlFieldsOf cfg).foldl urlStep []

/-- The buffer-size rule in isolation. -/
def nonNegErrs (cfg : config.CollectorConfig) : List FieldError :=
  (nonNegativeFieldsOf cfg).foldl nonNegStep []

/-- The resource-reference rule in isolation. -/
def refErrs (cfg : config.CollectorConfig) : List FieldError :=
  (resourceRefsOf cfg).foldl refStep []

/-- Whether a field error is the URL rule's violation. -/
def isURLViolation : FieldError → Bool
  | .invalid _ _ d => d == "invalid URL specified"
  | _ => false

end validation

namespace validator

/-- An opaque raw provider-config payload (`runtime.RawExtension.Raw`). -/
abbrev Raw := Nat

/-- A Go error value as observed by the admission validator: the
`ErrExtensionNotFound` sentinel, a plain error with a message
(`errors.New` / `fmt.Errorf` without `%w`), or a wrapping error
(`fmt.Errorf` with `%w`) carrying its formatted message and the wrapped
error. -/
inductive GoError where
  | extensionNotFound
  | msg (s : String)
  | wrap (s : String) (inner : GoError)
deriving DecidableEq, Repr

/-- The message of a Go error; the sentinel is `errors.New("extension not
found")`. -/
def GoError.message : GoError → String
  | .extensionNotFound => "extension not found"
  | .msg s => s
  | .wrap s _ => s

/-- Go's `errors.Is err target` for the error values above: the target
itself, or reachable through the unwrap chain. -/
def errorsIs (err target : GoError) : Bool :=
  (err == target) ||
    match err with
    | .wrap _ inner => errorsIs inner target
    | _ => false

/-- `IgnoreExtensionNotFound` from the validator package: returns `none`
(nil) if the error is `ErrExtensionNotFound` per `errors.Is`, otherwise the
error unchanged. -/
def IgnoreExtensionNotFound (err : GoError) : Option GoError :=
  if errorsIs err .extensionNotFound then none else some err

/-- A `core.Extension` entry of a shoot spec: the type discriminator, the
optional raw provider config and the optional disabled flag. -/
structure Extension where
  extType : String
  providerConfig : Option Raw
  disabled : Option Bool
deriving DecidableEq, Repr

/-- A `core.Shoot` restricted to the fields the validator reads: the
deletion timestamp (only its presence matters) and the extensions list. -/
structure Shoot where
  deletionTimestamp : Option Nat
  extensions : List Extension
deriving DecidableEq, Repr

/-- A `client.Object` argument of `Validate`: either a shoot or some other
object (including a nil interface), for which the shoot type assertion
fails. -/
inductive ClientObject where
  | shoot (s : Shoot)
  | nonShoot (kind : String)
deriving DecidableEq, Repr

/-- The extension type discriminator (`actuator.ExtensionType`). -/
def ExtensionType : String := "otelcol"

/-- A decoder for raw provider-config payloads (`runtime.Decoder` combined
with `runtime.DecodeInto`); failures carry the decode error message. -/
abbrev Decoder := Raw → Except String config.CollectorConfig

/-- `shootValidator.getExtension`: errors on a nil shoot, finds the first
extension whose type matches the discriminator, and wraps
`ErrExtensionNotFound` when there is none. -/
def getExtension (extensionType : String) (obj : Option Shoot) :
    Except GoError Extension :=
  match obj with
  | none => .error (.msg "invalid shoot resource provided")
  | some s =>
    match s.extensions.find? (fun ext => ext.extType == extensionType) with
    | none => .error (.wrap ("extension not found: " ++ extensionType) .extensionNotFound)
    | some ext => .ok ext

/-- `shootValidator.validateExtension`: looks up the extension (ignoring a
not-found result), accepts a disabled extension without touching its
payload, rejects a missing provider config, and otherwise decodes and
validates the configuration, wrapping either failure.  The old shoot is
ignored, as in the source (its parameter is the blank identifier). -/
def validateExtension (decode : Decoder) (newObj : Option Shoot)
    (_oldObj : Option Shoot) : Option GoError :=
  match getExtension ExtensionType newObj with
  | .error err => IgnoreExtensionNotFound err
  | .ok ext =>
    if ext.disabled == some true then none
    else
      match ext.providerConfig with
      | none => some (.msg ("no provider config specified for " ++ ExtensionType))
      | some raw =>
        match decode raw with
        | .error e =>
          some (.wrap ("invalid provider spec configuration for " ++ ExtensionType ++ ": " ++ e)
                      (.msg e))
        | .ok cfg =>
          match validation.toAggregate (validation.Validate cfg) with
          | some aggMsg =>
            some (.wrap ("invalid extension configuration for " ++ ExtensionType ++ ": " ++ aggMsg)
                        (.msg aggMsg))
          | none => none

/-- `shootValidator.Validate`: requires the new object to be a shoot,
degrades a non-shoot old object to nil, always accepts a shoot under
deletion, and otherwise validates the extension configuration. -/
def Validate (decode : Decoder) (newObj oldObj : ClientObject) : Option GoError :=
  match newObj with
  | .nonShoot _ => some (.msg "invalid object type")
  | .shoot newShoot =>
    let oldShoot : Option Shoot :=
      match oldObj with
      | .shoot s => some s
      | .nonShoot _ => none
    if newShoot.deletionTimestamp.isSome then none
    else validateExtension decode (some newShoot) oldShoot

end validator

namespace actuator

/-- The name of the gardenlet feature gate read by `Reconcile`
(`gardenerfeatures.OpenTelemetryCollector`). -/
def featureGateOpenTelemetryCollector : String := "OpenTelemetryCollector"

/-- The name of the managed resource created by the actuator. -/
def managedResourceName : String := "external-otelcol"

/-- An `extensionsv1alpha1.Extension` resource restricted to the fields the
actuator reads: name, namespace (the cluster identity) and the optional raw
provider config. -/
structure ExtensionResource where
  name : String
  namespaceName : String
  providerConfig : Option validator.Raw
deriving DecidableEq, Repr

/-- The shoot cluster facts read per reconciliation: whether hibernation is
enabled (`v1beta1helper.HibernationIsEnabled`, collapsed to an optional
flag). -/
structure Cluster where
  hibernationEnabled : Option Bool
deriving DecidableEq, Repr

/-- `v1beta1helper.HibernationIsEnabled` on the modelled cluster. -/
def hibernationIsEnabled (c : Cluster) : Bool :=
  c.hibernationEnabled == some true

/-- One object of the managed resource bundle, keeping the kind, name and
namespace of the rendered Kubernetes object. -/
structure BundleObject where
  kind : String
  name : String
  namespaceName : String
deriving DecidableEq, Repr

/-- `getTargetAllocatorServiceAccount`, reduced to its identity. -/
def getTargetAllocatorServiceAccount (ns : String) : BundleObject :=
  ⟨"ServiceAccount", "external-otelcol-targetallocator", ns⟩

/-- `getTargetAllocatorRole`, reduced to its identity. -/
def getTargetAllocatorRole (ns : String) : BundleObject :=
  ⟨"Role", "external-otelcol-targetallocator", ns⟩

/-- `getTargetAllocatorRoleBinding`, reduced to its identity. -/
def getTargetAllocatorRoleBinding (ns : String) : BundleObject :=
  ⟨"RoleBinding", "external-otelcol-targetallocator", ns⟩

/-- `getTargetAllocator`, reduced to its identity. -/
def getTargetAllocator (ns : String) : BundleObject :=
  ⟨"TargetAllocator", "external-otelcol", ns⟩

/-- The serialized registry contents handed to `CreateForSeed`
(`registry.AddAllAndSerialize` of the four rendered objects); a pure
function of the namespace, as in the source. -/
def renderBundleData (ns : String) : List BundleObject :=
  [getTargetAllocatorServiceAccount ns, getTargetAllocatorRole ns,
   getTargetAllocatorRoleBinding ns, getTargetAllocator ns]

/-- The external collaborators of the actuator: the gardenlet feature gates,
the provider-config decoder, the cluster lookup
(`extensionscontroller.GetCluster` through the seed client) and the optional
failures of the managed-resource apply/remove calls (the bundler's transient
errors; a remove not-found is not an error, `client.IgnoreNotFound` drops
it). -/
structure Env where
  gardenletFeatureGates : List (String × Bool)
  decode : validator.Raw → Except String config.CollectorConfig
  getCluster : String → Except String Cluster
  applyErr : Option String
  removeErr : Option String

/-- The mutable state the actuator acts upon: the managed resources present
in the seed, keyed by (namespace, name), and the observability counters of
`metrics.ActuatorOperationTotal`, keyed by (cluster identity, operation). -/
structure World where
  managedResources : List ((String × String) × List BundleObject)
  metrics : List ((String × String) × Nat)
deriving DecidableEq, Repr

/-- Increment a labelled Prometheus counter (`WithLabelValues(...).Inc()`):
bump the first entry with the key, or start it at one. -/
def incCounter : List ((String × String) × Nat) → String × String →
    List ((String × String) × Nat)
  | [], k => [(k, 1)]
  | (k', n) :: rest, k =>
    if k' = k then (k', n + 1) :: rest else (k', n) :: incCounter rest k

/-- Read a labelled counter (zero when never incremented). -/
def getCounter : List ((String × String) × Nat) → String × String → Nat
  | [], _ => 0
  | (k', n) :: rest, k => if k' = k then n else getCounter rest k

/-- Increment the actuator operation counter in the world state. -/
def incMetric (w : World) (cluster op : String) : World :=
  { w with metrics := incCounter w.metrics (cluster, op) }

/-- `managedresources.CreateForSeed`: idempotent upsert of the named
managed resource. -/
def upsertMR : List ((String × String) × List BundleObject) →
    String × String → List BundleObject → List ((String × String) × List BundleObject)
  | [], k, v => [(k, v)]
  | (k', v') :: rest, k, v =>
    if k' = k then (k, v) :: rest else (k', v') :: upsertMR rest k v

/-- `managedresources.DeleteForSeed`: remove the named managed resource
(no effect when absent, matching the ignored not-found error). -/
def removeMR : List ((String × String) × List BundleObject) →
    String × String → List ((String × String) × List BundleObject)
  | [], _ => []
  | (k', v') :: rest, k => if k' = k then rest else (k', v') :: removeMR rest k

/-- `Actuator.Delete`: increments the (namespace, "delete") counter
(deferred, so on every path), and requests removal of the managed resource,
ignoring a not-found result. -/
def Delete (env : Env) (w : World) (ex : ExtensionResource) :
    Except String Unit × World :=
  match env.removeErr with
  | some e => (.error e, incMetric w ex.namespaceName "delete")
  | none =>
    (.ok (),
     incMetric
       { w with managedResources :=
           (removeMR w.managedResources (ex.namespaceName, managedResourceName)) }
       ex.namespaceName "delete")

/-- The body of `Actuator.Reconcile` after the feature-gate check and the
deferred counter registration: fetch the cluster, stop on hibernation,
require and decode the provider config, validate it, and apply the rendered
bundle as the managed resource. -/
def reconcileCore (env : Env) (w : World) (ex : ExtensionResource) :
    Except String Unit × World :=
  match env.getCluster ex.namespaceName with
  | .error e => (.error ("failed to get cluster: " ++ e), w)
  | .ok cluster =>
    if hibernationIsEnabled cluster then (.ok (), w)
    else
      match ex.providerConfig with
      | none => (.error "no provider config specified", w)
      | some raw =>
        match env.decode raw with
        | .error e => (.error ("invalid provider spec configuration: " ++ e), w)
        | .ok cfg =>
          match validation.toAggregate (validation.Validate cfg) with
          | some aggErr => (.error aggErr, w)
          | none =>
            match env.applyErr with
            | some e => (.error e, w)
            | none =>
              (.ok (),
               { w with managedResources :=
                   (upsertMR w.managedResources
                     (ex.namespaceName, managedResourceName)
                     (renderBundleData ex.namespaceName)) })

/-- `Actuator.Reconcile`: when the OpenTelemetryCollector feature gate is
missing or disabled, executes `Delete`; otherwise runs the reconcile body
and increments the (namespace, "reconcile") counter on the way out (the
deferred increment registered after the gate check). -/
def Reconcile (env : Env) (w : World) (ex : ExtensionResource) :
    Except String Unit × World :=
  match env.gardenletFeatureGates.lookup featureGateOpenTelemetryCollector with
  | some true =>
    let r := reconcileCore env w ex
    (r.1, incMetric r.2 ex.namespaceName "reconcile")
  | _ => Delete env w ex

/-- `Actuator.ForceDelete`: increments the (namespace, "force_delete")
counter (deferred) and invokes `Delete`. -/
def ForceDelete (env : Env) (w : World) (ex : ExtensionResource) :
    Except String Unit × World :=
  let r := Delete env w ex
  (r.1, incMetric r.2 ex.namespaceName "force_delete")

/-- `Actuator.Restore`: increments the (namespace, "restore") counter
(deferred) and invokes `Reconcile`. -/
def Restore (env : Env) (w : World) (ex : ExtensionResource) :
    Except String Unit × World :=
  let r := Reconcile env w ex
  (r.1, incMetric r.2 ex.namespaceName "restore")

/-- `Actuator.Migrate`: increments the (namespace, "migrate") counter
(deferred) and invokes `Reconcile`. -/
def Migrate (env : Env) (w : World) (ex : ExtensionResource) :
    Except String Unit × World :=
  let r := Reconcile env w ex
  (r.1, incMetric r.2 ex.namespaceName "migrate")

end actuator

/-- The url-fields rule as the amended claim states it: a violation for each
of the five otlphttp endpoint fields that is non-empty and rejected by Go's
`url.Parse`, and no violation for an empty or successfully parsing field. -/
def specURLRule (cfg : config.CollectorConfig) : List validation.FieldError :=
  (validation.urlFieldsOf cfg).filterMap (fun f =>
    if f.2 != "" && !(GoNetURL.urlParseOK f.2) then
      some (.invalid f.1 f.2 "invalid URL specified")
    else none)

/-- The configuration of the claim's concrete scenario: one exporter enabled
with endpoint `"not a url"`. -/
def c1Config : config.CollectorConfig :=
  ⟨⟨⟨{ config.emptyOTLPHTTP with enabled := some true, endpoint := "not a url" },
     config.emptyDebug⟩⟩⟩

/-- A configuration with no exporter enabled and additional defects in other
fields (a malformed URL and a negative buffer size). -/
def c3Config : config.CollectorConfig :=
  ⟨⟨⟨{ config.emptyOTLPHTTP with
        endpoint := "%zz"
        readBufferSize := -1 },
     config.emptyDebug⟩⟩⟩

/-- A configuration with two independent defects: a malformed URL (`"%zz"`
fails Go's `url.Parse` on its invalid percent-escape) and a negative read
buffer size. -/
def c4Config : config.CollectorConfig :=
  ⟨⟨⟨{ config.emptyOTLPHTTP with
        enabled := some true
        endpoint := "%zz"
        readBufferSize := -1 },
     config.emptyDebug⟩⟩⟩

/-- A concrete environment with the OpenTelemetryCollector feature gate
absent. -/
def c2Env : actuator.Env :=
  { gardenletFeatureGates := []
    decode := fun _ => .error "unused"
    getCluster := fun _ => .ok ⟨none⟩
    applyErr := none
    removeErr := none }

/-- A concrete extension resource. -/
def c2Ex : actuator.ExtensionResource := ⟨"otelcol", "shoot--local--foo", none⟩

/-- A concrete environment with the feature gate present but false. -/
def c5Env : actuator.Env :=
  { gardenletFeatureGates := [("OpenTelemetryCollector", false)]
    decode := fun _ => .error "unused"
    getCluster := fun _ => .ok ⟨none⟩
    applyErr := none
    removeErr := none }

/-- A concrete environment with the gate on and a hibernated cluster. -/
def c6Env : actuator.Env :=
  { gardenletFeatureGates := [("OpenTelemetryCollector", true)]
    decode := fun _ => .error "unused"
    getCluster := fun _ => .ok ⟨some true⟩
    applyErr := none
    removeErr := none }

/-- A concrete environment with the gate on and a non-hibernated cluster. -/
def c7Env : actuator.Env :=
  { gardenletFeatureGates := [("OpenTelemetryCollector", true)]
    decode := fun _ => .error "unused"
    getCluster := fun _ => .ok ⟨none⟩
    applyErr := none
    removeErr := none }

/-- A valid collector configuration: the debug exporter is enabled and every
other field is at its zero value. -/
def c7ValidConfig : config.CollectorConfig :=
  ⟨⟨⟨config.emptyOTLPHTTP, ⟨some true, "basic"⟩⟩⟩⟩

/-- A concrete environment with the gate on, a non-hibernated cluster, a
decoder producing a valid configuration, and a bundler whose apply call
fails with an error whose message happens to equal the engine's
missing-provider-config error. -/
def c7TransientEnv : actuator.Env :=
  { gardenletFeatureGates := [("OpenTelemetryCollector", true)]
    decode := fun _ => .ok c7ValidConfig
    getCluster := fun _ => .ok ⟨none⟩
    applyErr := some "no provider config specified"
    removeErr := none }

-- Sanity checks of the url.Parse model on representative inputs.
example : GoNetURL.urlParseOK "not a url" = true := by decide
example : GoNetURL.urlParseOK "https://example.com:4318" = true := by decide
example : GoNetURL.urlParseOK "%zz" = false := by decide
example : GoNetURL.urlParseOK "http://host:bad-port" = false := by decide
example : GoNetURL.urlParseOK "" = true := by decide
example : GoNetURL.urlParseOK "http://exa mple.com" = false := by decide
example : GoNetURL.urlParseOK ":nope" = false := by decide
example : GoNetURL.urlParseOK "a:b/c" = true := by decide
example : GoNetURL.urlParseOK "a/b:c" = true := by decide
example : GoNetURL.urlParseOK "b:c/d" = true := by decide
example : GoNetURL.urlParseOK "https://user:pw@example.com/v1/traces?x=1#frag" = true := by decide
example : GoNetURL.urlParseOK "http://[::1]:4318" = true := by decide
example : GoNetURL.urlParseOK "http://[::1" = false := by decide
example : GoNetURL.urlParseOK "http://[::1%25eth0]" = true := by decide
example : GoNetURL.urlParseOK "http://[::1%25%2f]" = false := by decide
example : GoNetURL.urlParseOK "http://[::1%25%20x]" = true := by decide
example : GoNetURL.urlParseOK "http://[::1%25%ff]" = false := by decide
example : GoNetURL.urlParseOK "http://%ff" = true := by decide
example : GoNetURL.urlParseOK "http://%7f" = false := by decide

-- Sanity checks of the validator on concrete configurations.
example :
    validation.Validate config.emptyCollectorConfig =
      [.required "spec.exporters" "no exporter enabled"] := by decide
example :
    validation.Validate
      ⟨⟨⟨{ config.emptyOTLPHTTP with enabled := some true, endpoint := "not a url" },
         config.emptyDebug⟩⟩⟩ = [] := by decide

/-!  Helper lemmas about the accumulating validation loops.  -/

/-- A fold whose step appends to the accumulator factors through the empty
accumulator. -/
theorem foldl_step_append {α β : Type} (step : List α → β → List α)
    (hstep : ∀ a x, step a x = a ++ step [] x) :
    ∀ (l : List β) (a : List α), l.foldl step a = a ++ l.foldl step [] := by
  intro l
  induction l with
  | nil => intro a; simp
  | cons x xs ih =>
    intro a
    simp only [List.foldl_cons]
    rw [ih (step a x), ih (step [] x), hstep a x, List.append_assoc]

/-- The URL loop step appends to its accumulator. -/
theorem urlStep_shift (a : List validation.FieldError) (x : String × String) :
    validation.urlStep a x = a ++ validation.urlStep [] x := by
  unfold validation.urlStep
  by_cases h : (x.2 != "" && !(GoNetURL.urlParseOK x.2)) = true <;> simp [h]

/-- The buffer-size loop step appends to its accumulator. -/
theorem nonNegStep_shift (a : List validation.FieldError) (x : String × Int) :
    validation.nonNegStep a x = a ++ validation.nonNegStep [] x := by
  unfold validation.nonNegStep
  by_cases h : x.2 < 0 <;> simp [h]

/-- The resource-reference loop step appends to its accumulator. -/
theorem refStep_shift (a : List validation.FieldError)
    (x : String × Option config.ResourceReference) :
    validation.refStep a x = a ++ validation.refStep [] x := by
  unfold validation.refStep
  match h : x.2 with
  | none => simp
  | some ref =>
    by_cases hc : (ref.resourceRef.name == "" || ref.resourceRef.dataKey == "") = true <;>
      simp [hc]

/-- `Validate` is the concatenation of its four rule families, in order:
the code accumulates every family's violations and never short-circuits. -/
theorem validate_decomposition (cfg : config.CollectorConfig) :
    validation.Validate cfg =
      validation.exportersEnabledErrs cfg ++ validation.urlErrs cfg ++
      validation.nonNegErrs cfg ++ validation.refErrs cfg := by
  have key : ∀ a : List validation.FieldError,
      (validation.resourceRefsOf cfg).foldl validation.refStep
        ((validation.nonNegativeFieldsOf cfg).foldl validation.nonNegStep
          ((validation.urlFieldsOf cfg).foldl validation.urlStep a)) =
      a ++ validation.urlErrs cfg ++ validation.nonNegErrs cfg ++
        validation.refErrs cfg := by
    intro a
    rw [foldl_step_append validation.urlStep urlStep_shift,
        foldl_step_append validation.nonNegStep nonNegStep_shift,
        foldl_step_append validation.refStep refStep_shift]
    simp only [validation.urlErrs, validation.nonNegErrs, validation.refErrs,
      List.append_assoc]
  simp only [validation.Validate]
  rw [key]
  simp only [validation.exportersEnabledErrs, List.nil_append]

/-- An accumulating fold whose emitted elements all fail `p` leaves a
`p`-filter unchanged. -/
theorem filter_foldl_eq {α β : Type} (p : α → Bool) (step : List α → β → List α)
    (hstep : ∀ a x, (step a x).filter p = a.filter p) :
    ∀ (l : List β) (a : List α), (l.foldl step a).filter p = a.filter p := by
  intro l
  induction l with
  | nil => intro a; rfl
  | cons x xs ih => intro a; simp only [List.foldl_cons]; rw [ih, hstep]

/-- An accumulating conditional-emit fold from the empty accumulator is a
`filterMap`. -/
theorem foldl_emit_eq_filterMap {α β : Type} (cond : β → Bool) (emit : β → α) :
    ∀ l : List β,
      l.foldl (fun acc x => if cond x then acc ++ [emit x] else acc) [] =
        l.filterMap (fun x => if cond x then some (emit x) else none) := by
  intro l
  induction l with
  | nil => rfl
  | cons x xs ih =>
    simp only [List.foldl_cons, List.filterMap_cons]
    rw [foldl_step_append _ (fun a y => by by_cases h : cond y = true <;> simp [h]), ih]
    by_cases h : cond x = true <;> simp [h]

/-- A `p`-filter erases the buffer-size violations. -/
theorem filter_url_nonNegStep (a : List validation.FieldError) (x : String × Int) :
    (validation.nonNegStep a x).filter validation.isURLViolation =
      a.filter validation.isURLViolation := by
  unfold validation.nonNegStep
  by_cases h : x.2 < 0 <;> simp [h, validation.isURLViolation]

/-- A `p`-filter erases the resource-reference violations. -/
theorem filter_url_refStep (a : List validation.FieldError)
    (x : String × Option config.ResourceReference) :
    (validation.refStep a x).filter validation.isURLViolation =
      a.filter validation.isURLViolation := by
  unfold validation.refStep
  match x.2 with
  | none => rfl
  | some ref =>
    by_cases hc : (ref.resourceRef.name == "" || ref.resourceRef.dataKey == "") = true <;>
      simp [hc, validation.isURLViolation]

/-- Every element the URL loop emits is a URL violation. -/
theorem urlErrs_all_url (cfg : config.CollectorConfig) :
    ∀ e ∈ validation.urlErrs cfg, validation.isURLViolation e = true := by
  intro e he
  have h2 : e ∈ (validation.urlFieldsOf cfg).filterMap
      (fun x => if (x.2 != "" && !(GoNetURL.urlParseOK x.2)) = true then
        some (validation.FieldError.invalid x.1 x.2 "invalid URL specified") else none) := by
    rw [← foldl_emit_eq_filterMap]
    exact he
  obtain ⟨x, _, hx⟩ := List.mem_filterMap.mp h2
  by_cases hc : (x.2 != "" && !(GoNetURL.urlParseOK x.2)) = true
  · simp only [hc, if_true] at hx
    cases hx
    rfl
  · simp [hc] at hx

/-- Claim C1 is false on the code at the claim's own concrete scenario: for
the config with one exporter enabled and endpoint `"not a url"`, `Validate`
reports no violation at all (Go's `url.Parse` accepts `"not a url"` as a
relative URL), instead of the claimed violation on the URL field. -/
theorem C1_counterexample : validation.Validate c1Config = [] := by decide

/-- Claim C1 (amended): `Validate` reports an `invalid URL specified`
violation exactly on those otlphttp endpoint fields that are non-empty and
rejected by Go's `url.Parse` (which accepts most strings, including
`"not a url"`), and no URL violation on an empty endpoint field. -/
theorem C1_url_rule (cfg : config.CollectorConfig) :
    (validation.Validate cfg).filter validation.isURLViolation = specURLRule cfg := by
  rw [validate_decomposition]
  simp only [List.filter_append]
  have h1 : (validation.exportersEnabledErrs cfg).filter validation.isURLViolation = [] := by
    unfold validation.exportersEnabledErrs
    split <;> rfl
  have h2 : (validation.nonNegErrs cfg).filter validation.isURLViolation = [] :=
    filter_foldl_eq validation.isURLViolation validation.nonNegStep
      filter_url_nonNegStep (validation.nonNegativeFieldsOf cfg) []
  have h3 : (validation.refErrs cfg).filter validation.isURLViolation = [] :=
    filter_foldl_eq validation.isURLViolation validation.refStep
      filter_url_refStep (validation.resourceRefsOf cfg) []
  have h4 : (validation.urlErrs cfg).filter validation.isURLViolation =
      validation.urlErrs cfg :=
    List.filter_eq_self.mpr (urlErrs_all_url cfg)
  rw [h1, h2, h3, h4]
  simp only [List.nil_append, List.append_nil]
  exact foldl_emit_eq_filterMap _ _ (validation.urlFieldsOf cfg)

/-- Claim C3: a config with no exporter enabled always carries the
exporters-enabled violation (and is thus invalid) whatever the other fields
are, and the empty-exporters config yields exactly the single
`no exporter enabled` violation. -/
theorem C3_exporters_enabled :
    (∀ cfg : config.CollectorConfig,
        cfg.spec.exporters.debugExporter.IsEnabled = false →
        cfg.spec.exporters.otlphttpExporter.IsEnabled = false →
        (validation.FieldError.required "spec.exporters" "no exporter enabled") ∈
            validation.Validate cfg ∧
          validation.Validate cfg ≠ []) ∧
    validation.Validate config.emptyCollectorConfig =
      [.required "spec.exporters" "no exporter enabled"] := by
  constructor
  · intro cfg h1 h2
    have hmem : (validation.FieldError.required "spec.exporters" "no exporter enabled") ∈
        validation.Validate cfg := by
      rw [validate_decomposition]
      have : validation.exportersEnabledErrs cfg =
          [.required "spec.exporters" "no exporter enabled"] := by
        unfold validation.exportersEnabledErrs
        simp [h1, h2, validation.cmpOr]
      simp [this]
    exact ⟨hmem, by intro hnil; rw [hnil] at hmem; exact (List.not_mem_nil _) hmem⟩
  · decide

/-- Witness for C3 at a concrete config whose other fields are also
invalid. -/
theorem C3_witness :
    (validation.FieldError.required "spec.exporters" "no exporter enabled") ∈
        validation.Validate c3Config ∧
      validation.Validate c3Config ≠ [] :=
  C3_exporters_enabled.1 c3Config (by decide) (by decide)

/-- Claim C4: `Validate` evaluates all four rule families on every call and
accumulates every violation (its result is the concatenation of the four
families), so a config with both a URL defect and a buffer-size defect
reports both. -/
theorem C4_accumulation :
    (∀ cfg : config.CollectorConfig,
        validation.Validate cfg =
          validation.exportersEnabledErrs cfg ++ validation.urlErrs cfg ++
          validation.nonNegErrs cfg ++ validation.refErrs cfg) ∧
    (∀ (cfg : config.CollectorConfig) (e₁ e₂ : validation.FieldError),
        e₁ ∈ validation.urlErrs cfg → e₂ ∈ validation.nonNegErrs cfg →
        e₁ ∈ validation.Validate cfg ∧ e₂ ∈ validation.Validate cfg) := by
  refine ⟨validate_decomposition, ?_⟩
  intro cfg e₁ e₂ h1 h2
  rw [validate_decomposition]
  constructor
  · simp [h1]
  · simp [h2]

/-- Witness for C4: at the two-defect config, both violations are in the
result. -/
theorem C4_witness :
    (validation.FieldError.invalid "spec.exporters.otlphttp.endpoint" "%zz"
        "invalid URL specified") ∈ validation.Validate c4Config ∧
    (validation.FieldError.invalid "spec.exporters.otlphttp.read_buffer_size" "-1"
        "value cannot be negative") ∈ validation.Validate c4Config :=
  C4_accumulation.2 c4Config _ _ (by decide) (by decide)

/-!  Helper lemmas about the actuator's counters and state handling.  -/

/-- Incrementing a counter raises its own reading by one. -/
theorem getCounter_incCounter_self (m : List ((String × String) × Nat))
    (k : String × String) :
    actuator.getCounter (actuator.incCounter m k) k = actuator.getCounter m k + 1 := by
  induction m with
  | nil => simp [actuator.incCounter, actuator.getCounter]
  | cons hd tl ih =>
    obtain ⟨k', n⟩ := hd
    by_cases h : k' = k <;> simp [actuator.incCounter, actuator.getCounter, h, ih]

/-- Incrementing a counter leaves every other counter unchanged. -/
theorem getCounter_incCounter_ne (m : List ((String × String) × Nat))
    (k q : String × String) (h : q ≠ k) :
    actuator.getCounter (actuator.incCounter m k) q = actuator.getCounter m q := by
  induction m with
  | nil => simp [actuator.incCounter, actuator.getCounter, Ne.symm h]
  | cons hd tl ih =>
    obtain ⟨k', n⟩ := hd
    by_cases h1 : k' = k
    · subst h1
      simp [actuator.incCounter, actuator.getCounter, Ne.symm h]
    · by_cases h2 : k' = q <;>
        simp [actuator.incCounter, actuator.getCounter, h, h1, h2, ih]

/-- The reconcile body never touches the metrics. -/
theorem reconcileCore_metrics (env : actuator.Env) (w : actuator.World)
    (ex : actuator.ExtensionResource) :
    (actuator.reconcileCore env w ex).2.metrics = w.metrics := by
  unfold actuator.reconcileCore
  cases env.getCluster ex.namespaceName with
  | error e => rfl
  | ok c =>
    by_cases hh : actuator.hibernationIsEnabled c = true
    · simp [hh]
    · simp only [hh, Bool.false_eq_true, if_false]
      cases ex.providerConfig with
      | none => rfl
      | some raw =>
        simp only
        cases env.decode raw with
        | error e => rfl
        | ok cfg =>
          simp only
          cases validation.toAggregate (validation.Validate cfg) with
          | some aggErr => rfl
          | none =>
            simp only
            cases env.applyErr with
            | some e => rfl
            | none => rfl

/-- The reconcile body's result and managed-resource effect do not depend on
the metrics component of the world. -/
theorem reconcileCore_metrics_irrel (env : actuator.Env) (w : actuator.World)
    (m : List ((String × String) × Nat)) (ex : actuator.ExtensionResource) :
    (actuator.reconcileCore env { w with metrics := m } ex).1 =
        (actuator.reconcileCore env w ex).1 ∧
      (actuator.reconcileCore env { w with metrics := m } ex).2.managedResources =
        (actuator.reconcileCore env w ex).2.managedResources := by
  unfold actuator.reconcileCore
  cases env.getCluster ex.namespaceName with
  | error e => exact ⟨rfl, rfl⟩
  | ok c =>
    by_cases hh : actuator.hibernationIsEnabled c = true
    · simp [hh]
    · simp only [hh, Bool.false_eq_true, if_false]
      cases ex.providerConfig with
      | none => exact ⟨rfl, rfl⟩
      | some raw =>
        simp only
        cases env.decode raw with
        | error e => exact ⟨rfl, rfl⟩
        | ok cfg =>
          simp only
          cases validation.toAggregate (validation.Validate cfg) with
          | some aggErr => exact ⟨rfl, rfl⟩
          | none =>
            simp only
            cases env.applyErr with
            | some e => exact ⟨rfl, rfl⟩
            | none => exact ⟨rfl, rfl⟩

/-- `Delete` bumps exactly the (namespace, "delete") counter. -/
theorem Delete_metrics (env : actuator.Env) (w : actuator.World)
    (ex : actuator.ExtensionResource) :
    (actuator.Delete env w ex).2.metrics =
      actuator.incCounter w.metrics (ex.namespaceName, "delete") := by
  unfold actuator.Delete
  cases env.removeErr with
  | some e => rfl
  | none => rfl

/-- `Delete`'s result does not depend on the metrics component. -/
theorem Delete_result_irrel (env : actuator.Env) (w : actuator.World)
    (m : List ((String × String) × Nat)) (ex : actuator.ExtensionResource) :
    (actuator.Delete env { w with metrics := m } ex).1 =
      (actuator.Delete env w ex).1 := by
  unfold actuator.Delete
  cases env.removeErr with
  | some e => rfl
  | none => rfl

/-- `Reconcile`'s metrics effect at keys other than the reconcile and delete
counters of its own namespace is nil. -/
theorem Reconcile_metrics_other (env : actuator.Env) (w : actuator.World)
    (ex : actuator.ExtensionResource) (q : String × String)
    (h1 : q.2 ≠ "reconcile") (h2 : q.2 ≠ "delete") :
    actuator.getCounter ((actuator.Reconcile env w ex).2.metrics) q =
      actuator.getCounter w.metrics q := by
  unfold actuator.Reconcile
  have hq1 : q ≠ (ex.namespaceName, "reconcile") := by
    intro hc; exact h1 (by rw [hc])
  have hq2 : q ≠ (ex.namespaceName, "delete") := by
    intro hc; exact h2 (by rw [hc])
  cases hl : env.gardenletFeatureGates.lookup actuator.featureGateOpenTelemetryCollector with
  | none => rw [Delete_metrics, getCounter_incCounter_ne _ _ _ hq2]
  | some b =>
    cases b with
    | false => rw [Delete_metrics, getCounter_incCounter_ne _ _ _ hq2]
    | true =>
      simp only [actuator.incMetric]
      rw [getCounter_incCounter_ne _ _ _ hq1, reconcileCore_metrics]

/-- `Reconcile`'s result does not depend on the metrics component. -/
theorem Reconcile_result_irrel (env : actuator.Env) (w : actuator.World)
    (m : List ((String × String) × Nat)) (ex : actuator.ExtensionResource) :
    (actuator.Reconcile env { w with metrics := m } ex).1 =
      (actuator.Reconcile env w ex).1 := by
  unfold actuator.Reconcile
  cases env.gardenletFeatureGates.lookup actuator.featureGateOpenTelemetryCollector with
  | none => exact Delete_result_irrel env w m ex
  | some b =>
    cases b with
    | false => exact Delete_result_irrel env w m ex
    | true => exact (reconcileCore_metrics_irrel env w m ex).1

/-- Claim C2 (amended): `Delete`, `ForceDelete`, `Restore` and `Migrate`
increment the counter keyed by (cluster identity, trigger kind) on every
execution path; `Reconcile` increments its counter only when the
OpenTelemetryCollector feature gate is enabled — on the gate-off path it
executes `Delete` (incrementing the delete counter) and leaves the
reconcile counter untouched; and no trigger's result depends on the
counters. -/
theorem C2_metrics (env : actuator.Env) (w : actuator.World)
    (ex : actuator.ExtensionResource) :
    actuator.getCounter ((actuator.Delete env w ex).2.metrics)
        (ex.namespaceName, "delete") =
      actuator.getCounter w.metrics (ex.namespaceName, "delete") + 1 ∧
    actuator.getCounter ((actuator.ForceDelete env w ex).2.metrics)
        (ex.namespaceName, "force_delete") =
      actuator.getCounter w.metrics (ex.namespaceName, "force_delete") + 1 ∧
    actuator.getCounter ((actuator.Restore env w ex).2.metrics)
        (ex.namespaceName, "restore") =
      actuator.getCounter w.metrics (ex.namespaceName, "restore") + 1 ∧
    actuator.getCounter ((actuator.Migrate env w ex).2.metrics)
        (ex.namespaceName, "migrate") =
      actuator.getCounter w.metrics (ex.namespaceName, "migrate") + 1 ∧
    actuator.getCounter ((actuator.Reconcile env w ex).2.metrics)
        (ex.namespaceName, "reconcile") =
      (if env.gardenletFeatureGates.lookup actuator.featureGateOpenTelemetryCollector =
          some true
       then actuator.getCounter w.metrics (ex.namespaceName, "reconcile") + 1
       else actuator.getCounter w.metrics (ex.namespaceName, "reconcile")) ∧
    (∀ m : List ((String × String) × Nat),
      (actuator.Reconcile env { w with metrics := m } ex).1 =
          (actuator.Reconcile env w ex).1 ∧
        (actuator.Delete env { w with metrics := m } ex).1 =
          (actuator.Delete env w ex).1 ∧
        (actuator.ForceDelete env { w with metrics := m } ex).1 =
          (actuator.ForceDelete env w ex).1 ∧
        (actuator.Restore env { w with metrics := m } ex).1 =
          (actuator.Restore env w ex).1 ∧
        (actuator.Migrate env { w with metrics := m } ex).1 =
          (actuator.Migrate env w ex).1) := by
  refine ⟨?_, ?_, ?_, ?_, ?_, ?_⟩
  · rw [Delete_metrics, getCounter_incCounter_self]
  · unfold actuator.ForceDelete
    simp only [actuator.incMetric]
    rw [getCounter_incCounter_self, Delete_metrics,
        getCounter_incCounter_ne _ _ _ (by simp)]
  · unfold actuator.Restore
    simp only [actuator.incMetric]
    rw [getCounter_incCounter_self,
        Reconcile_metrics_other env w ex _ (by simp) (by simp)]
  · unfold actuator.Migrate
    simp only [actuator.incMetric]
    rw [getCounter_incCounter_self,
        Reconcile_metrics_other env w ex _ (by simp) (by simp)]
  · unfold actuator.Reconcile
    cases hl : env.gardenletFeatureGates.lookup actuator.featureGateOpenTelemetryCollector with
    | none =>
      simp only [if_neg (by simp : ¬ (none : Option Bool) = some true)]
      rw [Delete_metrics, getCounter_incCounter_ne _ _ _ (by simp)]
    | some b =>
      cases b with
      | false =>
        simp only [if_neg (by simp : ¬ (some false : Option Bool) = some true)]
        rw [Delete_metrics, getCounter_incCounter_ne _ _ _ (by simp)]
      | true =>
        simp [actuator.incMetric, getCounter_incCounter_self, reconcileCore_metrics]
  · intro m
    refine ⟨Reconcile_result_irrel env w m ex, Delete_result_irrel env w m ex, ?_, ?_, ?_⟩
    · unfold actuator.ForceDelete
      simp only
      exact Delete_result_irrel env w m ex
    · unfold actuator.Restore
      simp only
      exact Reconcile_result_irrel env w m ex
    · unfold actuator.Migrate
      simp only
      exact Reconcile_result_irrel env w m ex

/-- Claim C2 is false on the code: with the feature gate absent, `Reconcile`
completes (successfully executing the delete path) without incrementing the
(cluster, "reconcile") counter, because the deferred increment is registered
only after the feature-gate check. -/
theorem C2_counterexample :
    (actuator.Reconcile c2Env ⟨[], []⟩ c2Ex).1 = .ok () ∧
    actuator.getCounter ((actuator.Reconcile c2Env ⟨[], []⟩ c2Ex).2.metrics)
        ("shoot--local--foo", "reconcile") = 0 ∧
    actuator.getCounter ((actuator.Reconcile c2Env ⟨[], []⟩ c2Ex).2.metrics)
        ("shoot--local--foo", "delete") = 1 :=
  ⟨rfl, by decide, by decide⟩

/-- Claim C5: with the feature gate absent or false, `Reconcile` is the very
same computation as `Delete` — same bundler removal, same result, same final
state. -/
theorem C5_gate_off_is_delete (env : actuator.Env) (w : actuator.World)
    (ex : actuator.ExtensionResource)
    (h : env.gardenletFeatureGates.lookup actuator.featureGateOpenTelemetryCollector ≠
      some true) :
    actuator.Reconcile env w ex = actuator.Delete env w ex := by
  unfold actuator.Reconcile
  cases hl : env.gardenletFeatureGates.lookup actuator.featureGateOpenTelemetryCollector with
  | none => rfl
  | some b =>
    cases b with
    | false => rfl
    | true => exact absurd hl h

/-- Witness for C5 at a concrete gate-off environment and world. -/
theorem C5_witness :
    actuator.Reconcile c5Env ⟨[(("shoot--a", "external-otelcol"),
        actuator.renderBundleData "shoot--a")], []⟩ ⟨"otelcol", "shoot--a", some 0⟩ =
      actuator.Delete c5Env ⟨[(("shoot--a", "external-otelcol"),
        actuator.renderBundleData "shoot--a")], []⟩ ⟨"otelcol", "shoot--a", some 0⟩ :=
  C5_gate_off_is_delete c5Env _ _ (by decide)

/-- Claim C6: with the feature gate enabled and the cluster hibernated,
`Reconcile` reports success and leaves the managed-resource state exactly as
it was — neither an apply nor a removal happens. -/
theorem C6_hibernation_short_circuit (env : actuator.Env) (w : actuator.World)
    (ex : actuator.ExtensionResource) (c : actuator.Cluster)
    (hg : env.gardenletFeatureGates.lookup actuator.featureGateOpenTelemetryCollector =
      some true)
    (hc : env.getCluster ex.namespaceName = .ok c)
    (hh : actuator.hibernationIsEnabled c = true) :
    (actuator.Reconcile env w ex).1 = .ok () ∧
    (actuator.Reconcile env w ex).2.managedResources = w.managedResources := by
  unfold actuator.Reconcile actuator.reconcileCore
  rw [hg, hc]
  simp [hh, actuator.incMetric]

/-- Witness for C6 at a concrete hibernated cluster. -/
theorem C6_witness :
    (actuator.Reconcile c6Env ⟨[(("shoot--b", "external-otelcol"),
        actuator.renderBundleData "shoot--b")], []⟩ ⟨"otelcol", "shoot--b", some 0⟩).1 =
      .ok () ∧
    (actuator.Reconcile c6Env ⟨[(("shoot--b", "external-otelcol"),
        actuator.renderBundleData "shoot--b")], []⟩ ⟨"otelcol", "shoot--b", some 0⟩).2.managedResources =
      [(("shoot--b", "external-otelcol"), actuator.renderBundleData "shoot--b")] :=
  C6_hibernation_short_circuit c6Env _ _ ⟨some true⟩ (by decide) rfl rfl

/-- Claim C7 is false as stated: the code gives the missing-provider-config
failure no error class of its own — `Reconcile` returns bundler failures
verbatim, so a transient apply failure (here `CreateForSeed` failing, on a
valid configuration, with the same message) produces an error equal to the
one of the missing-provider-config case, which is therefore not distinct
from transient/infrastructure errors. -/
theorem C7_counterexample :
    (actuator.Reconcile c7TransientEnv ⟨[], []⟩ ⟨"otelcol", "shoot--c", some 0⟩).1 =
      .error "no provider config specified" ∧
    (actuator.Reconcile c7Env ⟨[], []⟩ ⟨"otelcol", "shoot--c", none⟩).1 =
      .error "no provider config specified" :=
  ⟨rfl, rfl⟩

/-- Claim C7 (amended): a present, enabled extension with no provider config
payload is rejected by the admission validator with the `no provider config
specified` message, and the actuator's `Reconcile` (gate on, cluster fetched
and not hibernated) fails on the same case with its fixed `no provider
config specified` error; the code assigns this error no class of its own:
it differs by message from every error the engine itself produces on its
cluster-fetch (infrastructure) failure path, while bundler apply failures
are returned verbatim and untagged. -/
theorem C7_no_provider_config :
    (∀ (d : validator.Decoder) (s : validator.Shoot) (o : validator.ClientObject)
        (ext : validator.Extension),
        s.deletionTimestamp = none →
        validator.getExtension validator.ExtensionType (some s) = .ok ext →
        ext.disabled ≠ some true →
        ext.providerConfig = none →
        validator.Validate d (.shoot s) o =
          some (.msg "no provider config specified for otelcol")) ∧
    (∀ (env : actuator.Env) (w : actuator.World) (ex : actuator.ExtensionResource)
        (c : actuator.Cluster),
        env.gardenletFeatureGates.lookup actuator.featureGateOpenTelemetryCollector =
          some true →
        env.getCluster ex.namespaceName = .ok c →
        actuator.hibernationIsEnabled c = false →
        ex.providerConfig = none →
        (actuator.Reconcile env w ex).1 = .error "no provider config specified") ∧
    (∀ e : String,
        ("no provider config specified" : String) ≠ "failed to get cluster: " ++ e) ∧
    (∀ (env : actuator.Env) (w : actuator.World) (ex : actuator.ExtensionResource)
        (c : actuator.Cluster) (raw : validator.Raw) (cfg : config.CollectorConfig)
        (e : String),
        env.gardenletFeatureGates.lookup actuator.featureGateOpenTelemetryCollector =
          some true →
        env.getCluster ex.namespaceName = .ok c →
        actuator.hibernationIsEnabled c = false →
        ex.providerConfig = some raw →
        env.decode raw = .ok cfg →
        validation.Validate cfg = [] →
        env.applyErr = some e →
        (actuator.Reconcile env w ex).1 = .error e) := by
  refine ⟨?_, ?_, ?_, ?_⟩
  · intro d s o ext h1 h2 h3 h4
    simp only [validator.Validate, validator.validateExtension, h1, h2, h4,
      Option.isSome_none, Bool.false_eq_true, if_false]
    simp [h3]
    rfl
  · intro env w ex c hg hc hh hp
    unfold actuator.Reconcile actuator.reconcileCore
    rw [hg, hc, hp]
    simp [hh]
  · intro e h
    have hd := congrArg String.data h
    rw [String.data_append] at hd
    simp at hd
  · intro env w ex c raw cfg e hg hc hh hp hd hv ha
    unfold actuator.Reconcile actuator.reconcileCore
    rw [hg, hc, hp]
    simp [hh, hd, hv, ha, validation.toAggregate]

/-- Witness for C7: a concrete enabled extension without provider config is
rejected by the admission gate, the matching reconcile fails with the fixed
configuration error, that message differs from a cluster-fetch failure, and
a bundler failure is returned verbatim. -/
theorem C7_witness :
    validator.Validate (fun _ => .error "unused")
        (.shoot ⟨none, [⟨"otelcol", none, none⟩]⟩) (.nonShoot "nil") =
      some (.msg "no provider config specified for otelcol") ∧
    (actuator.Reconcile c7Env ⟨[], []⟩ ⟨"otelcol", "shoot--c", none⟩).1 =
      .error "no provider config specified" ∧
    ("no provider config specified" : String) ≠ "failed to get cluster: boom" ∧
    (actuator.Reconcile c7TransientEnv ⟨[], []⟩ ⟨"otelcol", "shoot--c", some 0⟩).1 =
      .error "no provider config specified" :=
  ⟨C7_no_provider_config.1 _ _ _ ⟨"otelcol", none, none⟩ rfl rfl (by decide) rfl,
   C7_no_provider_config.2.1 c7Env ⟨[], []⟩ ⟨"otelcol", "shoot--c", none⟩ ⟨none⟩
     (by decide) rfl (by decide) rfl,
   C7_no_provider_config.2.2.1 "boom",
   C7_no_provider_config.2.2.2 c7TransientEnv ⟨[], []⟩ ⟨"otelcol", "shoot--c", some 0⟩
     ⟨none⟩ 0 c7ValidConfig "no provider config specified"
     (by decide) rfl (by decide) rfl rfl (by decide) rfl⟩

/-- Claim C8: a present but disabled extension is accepted by the admission
validator without decoding or validating its payload — for every decoder and
every payload, including malformed ones. -/
theorem C8_disabled_skips_validation (d : validator.Decoder) (s : validator.Shoot)
    (o : validator.ClientObject) (ext : validator.Extension)
    (h1 : s.deletionTimestamp = none)
    (h2 : validator.getExtension validator.ExtensionType (some s) = .ok ext)
    (h3 : ext.disabled = some true) :
    validator.Validate d (.shoot s) o = none := by
  simp only [validator.Validate, validator.validateExtension, h1, h2,
    Option.isSome_none, Bool.false_eq_true, if_false]
  simp [h3]

/-- Witness for C8: a disabled extension with a garbage payload and a
decoder that rejects everything is still accepted. -/
theorem C8_witness :
    validator.Validate (fun _ => .error "garbage payload")
        (.shoot ⟨none, [⟨"otelcol", some 42, some true⟩]⟩) (.nonShoot "nil") = none :=
  C8_disabled_skips_validation _ _ _ ⟨"otelcol", some 42, some true⟩ rfl rfl rfl

/-- Claim C9: a shoot with no extension block of the matching type is
accepted by the admission validator; internally the lookup produces an error
wrapping `ErrExtensionNotFound`, and `IgnoreExtensionNotFound` maps exactly
the errors wrapping that sentinel to nil, returning every other error
unchanged. -/
theorem C9_missing_extension :
    (∀ (d : validator.Decoder) (s : validator.Shoot) (o : validator.ClientObject),
        (∀ e ∈ s.extensions, e.extType ≠ validator.ExtensionType) →
        validator.Validate d (.shoot s) o = none) ∧
    (∀ s : validator.Shoot,
        (∀ e ∈ s.extensions, e.extType ≠ validator.ExtensionType) →
        validator.getExtension validator.ExtensionType (some s) =
            .error (.wrap "extension not found: otelcol" .extensionNotFound) ∧
          validator.errorsIs (.wrap "extension not found: otelcol" .extensionNotFound)
            .extensionNotFound = true) ∧
    (∀ err : validator.GoError,
        (validator.errorsIs err .extensionNotFound = true →
          validator.IgnoreExtensionNotFound err = none) ∧
        (validator.errorsIs err .extensionNotFound = false →
          validator.IgnoreExtensionNotFound err = some err)) := by
  have hfind : ∀ s : validator.Shoot,
      (∀ e ∈ s.extensions, e.extType ≠ validator.ExtensionType) →
      s.extensions.find? (fun ext => ext.extType == validator.ExtensionType) = none := by
    intro s hs
    rw [List.find?_eq_none]
    intro x hx
    simpa using hs x hx
  have hg : ∀ s : validator.Shoot,
      (∀ e ∈ s.extensions, e.extType ≠ validator.ExtensionType) →
      validator.getExtension validator.ExtensionType (some s) =
        .error (.wrap "extension not found: otelcol" .extensionNotFound) := by
    intro s hs
    simp only [validator.getExtension]
    rw [hfind s hs]
    rfl
  refine ⟨?_, ?_, ?_⟩
  · intro d s o hs
    cases hts : s.deletionTimestamp with
    | some t => simp [validator.Validate, hts]
    | none =>
      simp only [validator.Validate, validator.validateExtension, hts, hg s hs,
        Option.isSome_none, Bool.false_eq_true, if_false]
      rfl
  · intro s hs
    exact ⟨hg s hs, rfl⟩
  · intro err
    constructor
    · intro h
      simp only [validator.IgnoreExtensionNotFound, h, if_pos]
    · intro h
      simp only [validator.IgnoreExtensionNotFound, h, Bool.false_eq_true, if_false]

/-- Witness for C9: a shoot with only a foreign extension type is accepted,
and `IgnoreExtensionNotFound` keeps an unrelated error. -/
theorem C9_witness :
    validator.Validate (fun _ => .error "unused")
        (.shoot ⟨none, [⟨"other-extension", some 7, none⟩]⟩) (.nonShoot "nil") = none ∧
    validator.IgnoreExtensionNotFound (.msg "an error") = some (.msg "an error") :=
  ⟨C9_missing_extension.1 _ _ _ (by decide),
   (C9_missing_extension.2.2 (.msg "an error")).2 (by decide)⟩

/-- Claim C10: the admission verdict depends only on the new object — for
any new object and any two old objects (shoots, non-shoots or nil), the
validator returns the same result, because the old resource is never
examined. -/
theorem C10_old_object_ignored (d : validator.Decoder)
    (newObj o₁ o₂ : validator.ClientObject) :
    validator.Validate d newObj o₁ = validator.Validate d newObj o₂ := by
  cases newObj with
  | nonShoot k => rfl
  | shoot s => rfl
